import Mathlib

/-!
Shallow embedding of `airflow/auth/managers/fab/security_manager/override.py`
(class `FabAirflowSecurityManagerOverride`): the credential-reset and
session-revocation path, user loading, startup config initialization and
OAuth allow-list registration, together with theorems settling the frozen
claims about this module.
-/

set_option autoImplicit false

/-! ## Python scalar values crossing the identity API

`load_user` receives either an `int` user id (session owner) or a `str`
(JWT subject claim) and applies the Python builtin `int(...)` to it.
We model the two value shapes and the builtin conversions `int()` / `str()`.
-/

/-- A Python value arriving as a raw identity: either a string or an int. -/
inductive PyVal where
  | str (s : String)
  | int (n : Int)
  deriving DecidableEq, Repr

/-- Python exception raised by the builtin `int()` on a non-numeric string. -/
inductive PyError where
  | valueError
  deriving DecidableEq, Repr

/-- The character for decimal digit `d` (valid for `d < 10`). -/
def digitChar (d : Nat) : Char :=
  Char.ofNat (48 + d)

/-- Numeric value of a decimal digit character. -/
def charVal (c : Char) : Nat :=
  c.toNat - 48

/-- Little-endian decimal digit characters of `n` (empty for `0`). -/
def natDigitsRev (n : Nat) : List Char :=
  if h : n = 0 then [] else digitChar (n % 10) :: natDigitsRev (n / 10)
decreasing_by exact Nat.div_lt_self (Nat.pos_of_ne_zero h) (by decide)

/-- Value of a little-endian list of decimal digit characters. -/
def ofDigitsRevC : List Char → Nat
  | [] => 0
  | c :: cs => charVal c + 10 * ofDigitsRevC cs

/-- Parse a non-empty all-digit character list (big-endian) to its value;
`none` otherwise.  Models the digit part of the Python builtin `int(str)`. -/
def parseNatDigits (cs : List Char) : Option Nat :=
  if cs.isEmpty then none
  else if cs.all Char.isDigit then some (ofDigitsRevC cs.reverse) else none

/-- Model of the Python builtin `int` applied to a string: an optional sign
followed by decimal digits (surrounding whitespace and underscore separators,
which Python also tolerates, are not modelled; they affect no claim). -/
def pyIntOfString (s : String) : Option Int :=
  match s.data with
  | [] => none
  | c :: cs =>
    if c = '-' then (parseNatDigits cs).map (fun m => -(m : Int))
    else if c = '+' then (parseNatDigits cs).map (fun m => (m : Int))
    else (parseNatDigits (c :: cs)).map (fun m => (m : Int))

/-- Model of the Python builtin `int` applied to an identity value:
ints pass through, strings are parsed, and a non-numeric string raises
`ValueError`. -/
def pyToInt : PyVal → Except PyError Int
  | PyVal.int n => Except.ok n
  | PyVal.str s =>
    match pyIntOfString s with
    | some n => Except.ok n
    | none => Except.error PyError.valueError

/-- Big-endian decimal digit characters of `m`, with `"0"` for zero:
the Python `str` of a non-negative integer. -/
def pyStrNat (m : Nat) : List Char :=
  if m = 0 then ['0'] else (natDigitsRev m).reverse

/-- Model of the Python builtin `str` applied to an integer. -/
def pyStr (n : Int) : String :=
  if n < 0 then String.mk ('-' :: pyStrNat n.natAbs) else String.mk (pyStrNat n.toNat)

/-! ### Round-trip facts about `int()` and `str()` -/

theorem charVal_digitChar : ∀ d : Nat, d < 10 →
    charVal (digitChar d) = d ∧ (digitChar d).isDigit = true := by decide

theorem ofDigitsRevC_natDigitsRev (m : Nat) : ofDigitsRevC (natDigitsRev m) = m := by
  induction m using Nat.strong_induction_on with
  | _ m ih =>
    rw [natDigitsRev]
    by_cases h : m = 0
    · simp [h, ofDigitsRevC]
    · rw [dif_neg h, ofDigitsRevC,
        ih (m / 10) (Nat.div_lt_self (Nat.pos_of_ne_zero h) (by decide)),
        (charVal_digitChar (m % 10) (Nat.mod_lt _ (by decide))).1]
      omega

theorem natDigitsRev_all_isDigit (m : Nat) :
    (natDigitsRev m).all Char.isDigit = true := by
  induction m using Nat.strong_induction_on with
  | _ m ih =>
    rw [natDigitsRev]
    by_cases h : m = 0
    · simp [h]
    · rw [dif_neg h]
      simp only [List.all_cons, Bool.and_eq_true]
      exact ⟨(charVal_digitChar (m % 10) (Nat.mod_lt _ (by decide))).2,
        ih (m / 10) (Nat.div_lt_self (Nat.pos_of_ne_zero h) (by decide))⟩

theorem pyStrNat_ne_nil (m : Nat) : pyStrNat m ≠ [] := by
  unfold pyStrNat
  by_cases h : m = 0
  · simp [h]
  · rw [if_neg h, natDigitsRev, dif_neg h]
    simp

theorem pyStrNat_all_isDigit (m : Nat) : (pyStrNat m).all Char.isDigit = true := by
  unfold pyStrNat
  by_cases h : m = 0
  · simp [h]
  · rw [if_neg h]
    simpa using natDigitsRev_all_isDigit m

theorem parseNatDigits_pyStrNat (m : Nat) : parseNatDigits (pyStrNat m) = some m := by
  unfold parseNatDigits
  rw [if_neg (by simpa [List.isEmpty_iff] using pyStrNat_ne_nil m),
    if_pos (pyStrNat_all_isDigit m)]
  unfold pyStrNat
  by_cases h : m = 0
  · simp [h]; decide
  · rw [if_neg h, List.reverse_reverse, ofDigitsRevC_natDigitsRev]

/-! ## Users and user loading

`load_user` (override.py line 313) is `get_user_by_id(int(user_id))`.
`get_user_by_id` and `update_user` live in the Db mixin module
(`FabAirflowSecurityManagerOverrideDb`), outside this file: they are the
narrow user-store interface the spec describes.
-/

/-- A user record: identity key, username, password-credential hash. -/
structure User where
  id : Int
  username : String
  password : String
  deriving DecidableEq, Repr

/-- Modelled from the spec: `get_user_by_id` (Db mixin, not in src/) —
look a user up by primary key in the user store; an unknown identity
yields an empty result (the UserNotFound case). -/
def get_user_by_id : List User → Int → Option User
  | [], _ => none
  | u :: us, uid => if u.id = uid then some u else get_user_by_id us uid

/-- Modelled from the spec: `update_user` (Db mixin, not in src/) —
durably persist the given user record into the user store, replacing the
record with the same identity key. -/
def update_user (users : List User) (user : User) : List User :=
  users.map (fun u => if u.id = user.id then user else u)

/-- Modelled from the spec: `generate_password_hash` (werkzeug, trusted
external hashing collaborator) — a salted one-way hash, consumed as an
opaque pure function. -/
def generate_password_hash (password : String) : String :=
  "pbkdf2-hash:" ++ password

/-- `load_user` (line 313): `return self.get_user_by_id(int(user_id))`.
The builtin `int(...)` may raise `ValueError`; an unknown id gives `none`. -/
def load_user (users : List User) (user_id : PyVal) : Except PyError (Option User) :=
  match pyToInt user_id with
  | Except.error e => Except.error e
  | Except.ok n => Except.ok (get_user_by_id users n)

/-- The ambient per-request external state written by this module:
the flask `g.user` slot and the count of operator warnings emitted
via `flash`. -/
structure Ambient where
  gUser : Option User
  flashCount : Nat
  deriving DecidableEq, Repr

/-- A JWT payload carrying a subject claim (`jwt_data["sub"]`). -/
structure JwtData where
  sub : PyVal
  deriving DecidableEq, Repr

/-- `load_user_jwt` (lines 317-322): resolve `jwt_data["sub"]` via
`load_user`, assign the result to `g.user`, return it.  The jwt header
argument is unused by the source. -/
def load_user_jwt (users : List User) (amb : Ambient) (_jwt_header : Unit)
    (jwt_data : JwtData) : Except PyError (Option User × Ambient) :=
  match load_user users jwt_data.sub with
  | Except.error e => Except.error e
  | Except.ok user => Except.ok (user, { amb with gUser := user })

/-! ## The session store and `reset_user_sessions`

A session record holds an opaque serialized payload; `serializer.loads`
either raises (corrupt payload) or yields a dict whose `_user_id` entry
(if present) is the owning-user identity (`session_details.get("_user_id")`
is `None` when the key is absent).
-/

/-- The serialized payload of a session record, as seen through
`interface.serializer.loads(want_bytes(s.data))`: either deserialization
raises, or it yields a dict with an optional `_user_id` entry. -/
inductive Payload where
  | corrupt
  | valid (userId : Option Int)
  deriving DecidableEq, Repr

/-- Modelled from the spec: `interface.serializer.loads` (session-store
collaborator) — deserialize a payload, raising on a corrupt one. -/
def loads : Payload → Except Unit (Option Int)
  | Payload.corrupt => Except.error ()
  | Payload.valid uid => Except.ok uid

/-- The owning-user identity of a deserializable payload. -/
def payloadOwner (s : Payload) : Option Int :=
  match s with
  | Payload.corrupt => none
  | Payload.valid uid => uid

/-- A stored session: opaque id and serialized payload. -/
structure SessionRecord where
  sid : Nat
  data : Payload
  deriving DecidableEq, Repr

/-- The active session store: either the queryable database-backed
`AirflowDatabaseSessionInterface` holding a table of session records, or
the non-queryable `securecookie` mechanism. -/
inductive SessionInterface where
  | database (sessions : List SessionRecord)
  | securecookie
  deriving DecidableEq, Repr

/-- Line 49: the limit of DB user sessions considered "healthy". -/
def MAX_NUM_DATABASE_USER_SESSIONS : Nat := 50000

/-- Result of the deletion pass over the session table: the records still
present, and whether an exception escaped the scan. -/
structure ScanResult where
  remaining : List SessionRecord
  aborted : Bool
  deriving DecidableEq, Repr

/-- The loop of lines 296-299: for each record, deserialize the payload
(an exception propagates, leaving the current and all later records
untouched) and delete the record when its `_user_id` equals the id of the
user. -/
def scanSessions (uid : Int) : List SessionRecord → ScanResult
  | [] => ⟨[], false⟩
  | s :: rest =>
    match loads s.data with
    | Except.error _ => ⟨s :: rest, true⟩
    | Except.ok details =>
      if details = some uid then scanSessions uid rest
      else
        let r := scanSessions uid rest
        ⟨s :: r.remaining, r.aborted⟩

/-- Outcome of `reset_user_sessions`: the session store afterwards, the
number of operator warnings flashed, and whether an exception escaped. -/
structure RevokeResult where
  store : SessionInterface
  warnings : Nat
  raised : Bool
  deriving DecidableEq, Repr

/-- `reset_user_sessions` (lines 275-311): on a database-backed store,
count all sessions; above `MAX_NUM_DATABASE_USER_SESSIONS` only flash a
warning, otherwise run the deletion pass.  On a non-queryable
(`securecookie`) store, only flash a warning. -/
def reset_user_sessions (store : SessionInterface) (user : User) : RevokeResult :=
  match store with
  | SessionInterface.database sessions =>
    let num_sessions := sessions.length
    if num_sessions > MAX_NUM_DATABASE_USER_SESSIONS then
      ⟨SessionInterface.database sessions, 1, false⟩
    else
      let r := scanSessions user.id sessions
      ⟨SessionInterface.database r.remaining, 0, r.aborted⟩
  | SessionInterface.securecookie => ⟨SessionInterface.securecookie, 1, false⟩

/-! ## `reset_password` and its call sequence -/

/-- The externally visible calls `reset_password` makes, in order. -/
inductive Event where
  | get_user_call (uid : Int)
  | hash_password_call
  | reset_user_sessions_call (uid : Int)
  | update_user_call (uid : Int)
  deriving DecidableEq, Repr

/-- Index of the first occurrence of `e`, if any. -/
def firstIdx (e : Event) : List Event → Option Nat
  | [] => none
  | x :: xs => if x = e then some 0 else (firstIdx e xs).map (· + 1)

/-- `a` occurs in `tr` strictly before the first occurrence of `b`. -/
def occursBefore (tr : List Event) (a b : Event) : Bool :=
  match firstIdx a tr, firstIdx b tr with
  | some i, some j => decide (i < j)
  | _, _ => false

/-- The mutable state `reset_password` touches: the user store, the
session store, and the count of warnings flashed. -/
structure AuthState where
  users : List User
  store : SessionInterface
  flashes : Nat
  deriving DecidableEq, Repr

/-- `reset_password` (lines 262-273): load the user, set the new password
hash on the record, call `reset_user_sessions`, then call `update_user` —
in that source order, recorded in the returned trace.  `none` models an
uncaught exception (unknown user id, or an exception escaping the
deletion pass, in which case `update_user` is never reached). -/
def reset_password (st : AuthState) (userid : Int) (password : String) :
    Option (AuthState × List Event) :=
  match get_user_by_id st.users userid with
  | none => none
  | some user0 =>
    let user := { user0 with password := generate_password_hash password }
    let r := reset_user_sessions st.store user
    if r.raised then none
    else
      some ({ users := update_user st.users user, store := r.store,
              flashes := st.flashes + r.warnings },
        [Event.get_user_call userid, Event.hash_password_call,
         Event.reset_user_sessions_call userid, Event.update_user_call userid])

/-! ## Startup configuration initialization (`_init_config`, lines 374-421) -/

/-- The single active authentication backend mode. -/
inductive AuthType where
  | DB
  | LDAP
  | OAUTH
  | OID
  | REMOTE_USER
  deriving DecidableEq, Repr

/-- A configuration value: string, boolean, auth type, `None`, or an
empty dict (the `AUTH_ROLES_MAPPING` default). -/
inductive CfgVal where
  | s (v : String)
  | b (v : Bool)
  | auth (v : AuthType)
  | none_
  | emptyDict
  deriving DecidableEq, Repr

/-- A flask app config: ordered key/value entries. -/
abbrev Config := List (String × CfgVal)

/-- First value stored under `k`, if any. -/
def cfgGet (cfg : Config) (k : String) : Option CfgVal :=
  match cfg with
  | [] => none
  | (k1, v) :: rest => if k1 = k then some v else cfgGet rest k

/-- Python `dict.setdefault`: insert `(k, v)` only when `k` is absent. -/
def setdefault (cfg : Config) (k : String) (v : CfgVal) : Config :=
  if (cfgGet cfg k).isSome then cfg else cfg ++ [(k, v)]

/-- Line 397: the message of the exception raised when LDAP is configured
without a server. -/
def ldapServerError : String :=
  "No AUTH_LDAP_SERVER defined on config with AUTH_LDAP authentication type."

/-- The LDAP default table of `_init_config` (lines 398-417), applied in
source order. -/
def ldapDefaults (cfg : Config) : Config :=
  let cfg := setdefault cfg "AUTH_LDAP_SEARCH" (CfgVal.s "")
  let cfg := setdefault cfg "AUTH_LDAP_SEARCH_FILTER" (CfgVal.s "")
  let cfg := setdefault cfg "AUTH_LDAP_APPEND_DOMAIN" (CfgVal.s "")
  let cfg := setdefault cfg "AUTH_LDAP_USERNAME_FORMAT" (CfgVal.s "")
  let cfg := setdefault cfg "AUTH_LDAP_BIND_USER" (CfgVal.s "")
  let cfg := setdefault cfg "AUTH_LDAP_BIND_PASSWORD" (CfgVal.s "")
  let cfg := setdefault cfg "AUTH_LDAP_USE_TLS" (CfgVal.b false)
  let cfg := setdefault cfg "AUTH_LDAP_ALLOW_SELF_SIGNED" (CfgVal.b false)
  let cfg := setdefault cfg "AUTH_LDAP_TLS_DEMAND" (CfgVal.b false)
  let cfg := setdefault cfg "AUTH_LDAP_TLS_CACERTDIR" (CfgVal.s "")
  let cfg := setdefault cfg "AUTH_LDAP_TLS_CACERTFILE" (CfgVal.s "")
  let cfg := setdefault cfg "AUTH_LDAP_TLS_CERTFILE" (CfgVal.s "")
  let cfg := setdefault cfg "AUTH_LDAP_TLS_KEYFILE" (CfgVal.s "")
  let cfg := setdefault cfg "AUTH_LDAP_UID_FIELD" (CfgVal.s "uid")
  let cfg := setdefault cfg "AUTH_LDAP_GROUP_FIELD" (CfgVal.s "memberOf")
  let cfg := setdefault cfg "AUTH_LDAP_FIRSTNAME_FIELD" (CfgVal.s "givenName")
  let cfg := setdefault cfg "AUTH_LDAP_LASTNAME_FIELD" (CfgVal.s "sn")
  setdefault cfg "AUTH_LDAP_EMAIL_FIELD" (CfgVal.s "mail")

/-- The LDAP block of `_init_config` (lines 394-417): raise when
`AUTH_LDAP_SERVER` is missing, otherwise fill the LDAP defaults. -/
def ldapConfigStep (cfg : Config) : Except String Config :=
  if cfgGet cfg "AUTH_TYPE" = some (CfgVal.auth AuthType.LDAP) then
    if (cfgGet cfg "AUTH_LDAP_SERVER").isSome = false then
      Except.error ldapServerError
    else Except.ok (ldapDefaults cfg)
  else Except.ok cfg

/-- The base security defaults of `_init_config` (lines 382-392), applied
in source order. -/
def baseDefaults (cfg0 : Config) : Config :=
  let cfg := setdefault cfg0 "AUTH_ROLE_ADMIN" (CfgVal.s "Admin")
  let cfg := setdefault cfg "AUTH_ROLE_PUBLIC" (CfgVal.s "Public")
  let cfg := setdefault cfg "AUTH_TYPE" (CfgVal.auth AuthType.DB)
  let cfg := setdefault cfg "AUTH_USER_REGISTRATION" (CfgVal.b false)
  let cfg := setdefault cfg "AUTH_USER_REGISTRATION_ROLE"
    ((cfgGet cfg "AUTH_ROLE_PUBLIC").getD CfgVal.none_)
  let cfg := setdefault cfg "AUTH_USER_REGISTRATION_ROLE_JMESPATH" CfgVal.none_
  let cfg := setdefault cfg "AUTH_ROLES_MAPPING" CfgVal.emptyDict
  let cfg := setdefault cfg "AUTH_ROLES_SYNC_AT_LOGIN" (CfgVal.b false)
  setdefault cfg "AUTH_API_LOGIN_ALLOW_MULTIPLE_PROVIDERS" (CfgVal.b false)

/-- `_init_config` (lines 374-421): base security defaults, the LDAP
block (the only point that can raise), then the rate-limiting defaults. -/
def init_config (cfg0 : Config) : Except String Config :=
  match ldapConfigStep (baseDefaults cfg0) with
  | Except.error e => Except.error e
  | Except.ok cfg1 =>
    Except.ok (setdefault (setdefault cfg1 "AUTH_RATE_LIMITED" (CfgVal.b true))
      "AUTH_RATE_LIMIT" (CfgVal.s "5 per 40 second"))

/-! ## OAuth allow-list registration (`_init_auth`, lines 434-449) -/

/-- An OAuth provider descriptor: name and, optionally, a declared
allow-list (`provider["whitelist"]`); the remote-app settings are consumed
by the external authlib collaborator and are not modelled. -/
structure OAuthProvider where
  name : String
  whitelist : Option (List String)
  deriving DecidableEq, Repr

/-- The allow-list registry: provider name to allow-list. -/
abbrev AllowList := List (String × List String)

/-- First allow-list registered under `name`, if any. -/
def allowGet (d : AllowList) (name : String) : Option (List String) :=
  match d with
  | [] => none
  | (k, v) :: rest => if k = name then some v else allowGet rest name

/-- Python dict assignment `d[k] = v`: overwrite the entry for `k` in
place when present, append it otherwise. -/
def dictSet (d : AllowList) (k : String) (v : List String) : AllowList :=
  match d with
  | [] => [(k, v)]
  | (k1, v1) :: rest => if k1 = k then (k, v) :: rest else (k1, v1) :: dictSet rest k v

/-- The per-provider body of the loop in `_init_auth` (lines 439-449),
restricted to its only write into `oauth_allow_list`:
`if "whitelist" in provider: self.oauth_allow_list[provider_name] = provider["whitelist"]`. -/
def registerProvider (d : AllowList) (p : OAuthProvider) : AllowList :=
  match p.whitelist with
  | some wl => dictSet d p.name wl
  | none => d

/-- The `oauth_allow_list` registry after `_init_auth` runs with auth type
OAUTH over the configured providers, starting from the empty class-level
dict (line 100). -/
def init_auth_allow_list (providers : List OAuthProvider) : AllowList :=
  providers.foldl registerProvider []

/-! ## Helper lemmas about the deletion scan -/

theorem scanSessions_no_corrupt (uid : Int) (l : List SessionRecord)
    (h : ∀ s ∈ l, s.data ≠ Payload.corrupt) :
    scanSessions uid l =
      ⟨l.filter (fun s => decide (payloadOwner s.data ≠ some uid)), false⟩ := by
  induction l with
  | nil => rfl
  | cons s rest ih =>
    have hs := h s (List.mem_cons_self s rest)
    have hrest : ∀ t ∈ rest, t.data ≠ Payload.corrupt :=
      fun t ht => h t (List.mem_cons_of_mem s ht)
    cases hd : s.data with
    | corrupt => exact absurd hd hs
    | valid uidOpt =>
      simp only [scanSessions, hd, loads]
      by_cases he : uidOpt = some uid
      · subst he
        rw [if_pos rfl, ih hrest]
        simp [List.filter_cons, payloadOwner, hd]
      · rw [if_neg he, ih hrest]
        simp [List.filter_cons, payloadOwner, hd, he]

theorem scanSessions_abort (uid : Int) (pre rest : List SessionRecord) (s : SessionRecord)
    (hpre : ∀ t ∈ pre, t.data ≠ Payload.corrupt) (hs : s.data = Payload.corrupt) :
    scanSessions uid (pre ++ s :: rest) =
      ⟨pre.filter (fun t => decide (payloadOwner t.data ≠ some uid)) ++ s :: rest, true⟩ := by
  induction pre with
  | nil =>
    simp only [List.nil_append, scanSessions, hs, loads, List.filter_nil]
  | cons t pre1 ih =>
    have ht := hpre t (List.mem_cons_self t pre1)
    have hpre1 : ∀ x ∈ pre1, x.data ≠ Payload.corrupt :=
      fun x hx => hpre x (List.mem_cons_of_mem t hx)
    cases hd : t.data with
    | corrupt => exact absurd hd ht
    | valid uidOpt =>
      simp only [List.cons_append, scanSessions, hd, loads, List.append_eq]
      by_cases he : uidOpt = some uid
      · subst he
        rw [if_pos rfl, ih hpre1]
        simp [List.filter_cons, payloadOwner, hd]
      · rw [if_neg he, ih hpre1]
        simp [List.filter_cons, payloadOwner, hd, he]

/-! ## Concrete inputs used by witnesses and counterexamples -/

def demoUser7 : User := ⟨7, "alice", "oldhash"⟩

def bigSessions : List SessionRecord := List.replicate 50001 ⟨0, Payload.valid none⟩

def smallSessions : List SessionRecord :=
  [⟨1, Payload.valid (some 7)⟩, ⟨2, Payload.valid (some 9)⟩]

def scenarioSessions : List SessionRecord :=
  [⟨1, Payload.valid (some 7)⟩, ⟨2, Payload.valid (some 9)⟩, ⟨3, Payload.valid (some 7)⟩,
   ⟨4, Payload.valid (some 7)⟩, ⟨5, Payload.valid (some 9)⟩]

def corruptSessions : List SessionRecord :=
  [⟨1, Payload.corrupt⟩, ⟨2, Payload.valid (some 7)⟩]

def demoAuthState : AuthState :=
  ⟨[demoUser7], SessionInterface.database [⟨1, Payload.valid (some 7)⟩], 0⟩

def demoTrace : List Event :=
  ((reset_password demoAuthState 7 "newpw").map (fun p => p.2)).getD []

/-! ## Claims -/

/-- C1 counterexample: in `reset_password`, at the concrete state
`demoAuthState`, both `update_user` and `reset_user_sessions` are invoked
but `update_user` does NOT occur strictly before `reset_user_sessions`:
the source (lines 272-273) calls `reset_user_sessions` first, refuting
the claimed ordering. -/
theorem reset_password_update_before_revoke_cex :
    (Event.update_user_call 7 ∈ demoTrace) ∧
    (Event.reset_user_sessions_call 7 ∈ demoTrace) ∧
    occursBefore demoTrace (Event.update_user_call 7)
      (Event.reset_user_sessions_call 7) = false := by
  decide

/-- C1 (amended): for every state, user id and password on which
`reset_password` completes, its call sequence performs the
session-revocation operation (`reset_user_sessions`) strictly BEFORE the
durable credential update (`update_user`) — the reverse of the claimed
order. -/
theorem reset_password_revoke_before_update (st : AuthState) (userid : Int)
    (password : String) (st1 : AuthState) (tr : List Event)
    (h : reset_password st userid password = some (st1, tr)) :
    occursBefore tr (Event.reset_user_sessions_call userid)
      (Event.update_user_call userid) = true ∧
    Event.reset_user_sessions_call userid ∈ tr ∧
    Event.update_user_call userid ∈ tr := by
  unfold reset_password at h
  cases hu : get_user_by_id st.users userid with
  | none => rw [hu] at h; exact absurd h (by simp)
  | some user0 =>
    rw [hu] at h
    simp only at h
    by_cases hr : (reset_user_sessions st.store
        { user0 with password := generate_password_hash password }).raised
    · rw [if_pos hr] at h; exact absurd h (by simp)
    · rw [if_neg hr] at h
      have htr : tr = [Event.get_user_call userid, Event.hash_password_call,
          Event.reset_user_sessions_call userid, Event.update_user_call userid] :=
        (congrArg Prod.snd (Option.some.inj h)).symm
      subst htr
      refine ⟨?_, by simp, by simp⟩
      simp [occursBefore, firstIdx]

/-- C1 witness: the amended ordering at the concrete state
`demoAuthState`. -/
theorem reset_password_revoke_before_update_witness :
    occursBefore [Event.get_user_call 7, Event.hash_password_call,
        Event.reset_user_sessions_call 7, Event.update_user_call 7]
      (Event.reset_user_sessions_call 7) (Event.update_user_call 7) = true ∧
    Event.reset_user_sessions_call 7 ∈ [Event.get_user_call 7, Event.hash_password_call,
      Event.reset_user_sessions_call 7, Event.update_user_call 7] ∧
    Event.update_user_call 7 ∈ [Event.get_user_call 7, Event.hash_password_call,
      Event.reset_user_sessions_call 7, Event.update_user_call 7] :=
  reset_password_revoke_before_update demoAuthState 7 "newpw"
    ⟨[⟨7, "alice", "pbkdf2-hash:newpw"⟩], SessionInterface.database [], 0⟩
    [Event.get_user_call 7, Event.hash_password_call,
     Event.reset_user_sessions_call 7, Event.update_user_call 7]
    (by decide)

/-- C2: on a database-backed store, when the total session count strictly
exceeds `MAX_NUM_DATABASE_USER_SESSIONS`, `reset_user_sessions` deletes
nothing and emits exactly one warning; when the count is at most the
threshold (equality included), it proceeds to the deletion pass. -/
theorem reset_user_sessions_threshold (user : User) (sessions : List SessionRecord) :
    (sessions.length > MAX_NUM_DATABASE_USER_SESSIONS →
      reset_user_sessions (SessionInterface.database sessions) user =
        ⟨SessionInterface.database sessions, 1, false⟩) ∧
    (sessions.length ≤ MAX_NUM_DATABASE_USER_SESSIONS →
      reset_user_sessions (SessionInterface.database sessions) user =
        ⟨SessionInterface.database (scanSessions user.id sessions).remaining, 0,
          (scanSessions user.id sessions).aborted⟩) := by
  constructor
  · intro h
    simp only [reset_user_sessions]
    rw [if_pos h]
  · intro h
    simp only [reset_user_sessions]
    rw [if_neg (Nat.not_lt.mpr h)]

/-- C2 witness: at the threshold plus one (50001 sessions) nothing is
deleted and one warning is emitted; below the threshold the deletion pass
runs (here deleting the one session owned by user 7). -/
theorem reset_user_sessions_threshold_witness :
    reset_user_sessions (SessionInterface.database bigSessions) demoUser7 =
      ⟨SessionInterface.database bigSessions, 1, false⟩ ∧
    reset_user_sessions (SessionInterface.database smallSessions) demoUser7 =
      ⟨SessionInterface.database [⟨2, Payload.valid (some 9)⟩], 0, false⟩ :=
  ⟨(reset_user_sessions_threshold demoUser7 bigSessions).1
      (by unfold bigSessions; rw [List.length_replicate]; decide),
   ((reset_user_sessions_threshold demoUser7 smallSessions).2
      (by unfold smallSessions; decide)).trans (by decide)⟩

/-- C3: on a database-backed store whose total count does not exceed the
threshold and each of whose payloads deserializes, `reset_user_sessions`
deletes exactly the records whose payload owner equals the id of the
user, and keeps every record owned by anyone else. -/
theorem reset_user_sessions_exact_deletion (user : User) (sessions : List SessionRecord)
    (hlen : sessions.length ≤ MAX_NUM_DATABASE_USER_SESSIONS)
    (hok : ∀ s ∈ sessions, s.data ≠ Payload.corrupt) :
    reset_user_sessions (SessionInterface.database sessions) user =
      ⟨SessionInterface.database
        (sessions.filter (fun s => decide (payloadOwner s.data ≠ some user.id))),
       0, false⟩ := by
  simp only [reset_user_sessions]
  rw [if_neg (Nat.not_lt.mpr hlen), scanSessions_no_corrupt user.id sessions hok]

/-- C3 witness: the spec scenario — 3 sessions owned by user 7 and 2 by
user 9, total 5 below the threshold: exactly the 3 sessions of user 7 go,
the 2 sessions of user 9 stay. -/
theorem reset_user_sessions_exact_deletion_witness :
    reset_user_sessions (SessionInterface.database scenarioSessions) demoUser7 =
      ⟨SessionInterface.database
        [⟨2, Payload.valid (some 9)⟩, ⟨5, Payload.valid (some 9)⟩], 0, false⟩ :=
  (reset_user_sessions_exact_deletion demoUser7 scenarioSessions
      (by unfold scenarioSessions; decide) (by unfold scenarioSessions; decide)).trans
    (by decide)

/-- C4 counterexample: with a store of two records — a corrupt one
followed by a record owned by user 7 — the revocation scan of user 7
aborts with an uncaught exception and the session owned by user 7
survives: a single corrupt payload DOES abort the scan and DOES prevent
deletion of the other sessions of the user, refuting the claim. -/
theorem reset_user_sessions_corrupt_cex :
    (reset_user_sessions (SessionInterface.database corruptSessions) demoUser7).raised
      = true ∧
    reset_user_sessions (SessionInterface.database corruptSessions) demoUser7 =
      ⟨SessionInterface.database corruptSessions, 0, true⟩ := by
  decide

/-- C4 (amended): during the revocation scan (store at or below the
threshold), a record whose payload fails to deserialize aborts the
iteration: the exception propagates, the corrupt record and every record
after it are left untouched, and only user-owned records BEFORE the
corrupt one have been deleted. -/
theorem reset_user_sessions_corrupt_aborts (user : User)
    (pre rest : List SessionRecord) (s : SessionRecord)
    (hlen : (pre ++ s :: rest).length ≤ MAX_NUM_DATABASE_USER_SESSIONS)
    (hpre : ∀ t ∈ pre, t.data ≠ Payload.corrupt) (hs : s.data = Payload.corrupt) :
    reset_user_sessions (SessionInterface.database (pre ++ s :: rest)) user =
      ⟨SessionInterface.database
        (pre.filter (fun t => decide (payloadOwner t.data ≠ some user.id)) ++ s :: rest),
       0, true⟩ := by
  simp only [reset_user_sessions]
  rw [if_neg (Nat.not_lt.mpr hlen), scanSessions_abort user.id pre rest s hpre hs]

/-- C4 witness: a store with one session of user 7, then a corrupt
record, then another session of user 7 — the first is deleted, the scan
aborts at the corrupt record, the last survives. -/
theorem reset_user_sessions_corrupt_aborts_witness :
    reset_user_sessions
        (SessionInterface.database
          [⟨0, Payload.valid (some 7)⟩, ⟨1, Payload.corrupt⟩,
           ⟨2, Payload.valid (some 7)⟩]) demoUser7 =
      ⟨SessionInterface.database [⟨1, Payload.corrupt⟩, ⟨2, Payload.valid (some 7)⟩],
       0, true⟩ :=
  (reset_user_sessions_corrupt_aborts demoUser7 [⟨0, Payload.valid (some 7)⟩]
      [⟨2, Payload.valid (some 7)⟩] ⟨1, Payload.corrupt⟩ (by decide) (by decide)
      rfl).trans (by decide)

/-- C5: a non-queryable (`securecookie`) session store is non-fatal:
`reset_user_sessions` deletes nothing and only flashes one operator
warning (no exception), and `reset_password` still completes with the new
credential persisted — and likewise when revocation is skipped for the
threshold reason. -/
theorem reset_password_skip_nonfatal (st : AuthState) (userid : Int)
    (password : String) (u : User)
    (hu : get_user_by_id st.users userid = some u) :
    (∀ user, reset_user_sessions SessionInterface.securecookie user =
      ⟨SessionInterface.securecookie, 1, false⟩) ∧
    (st.store = SessionInterface.securecookie →
      reset_password st userid password =
        some ({ users := update_user st.users
                  { u with password := generate_password_hash password },
                store := SessionInterface.securecookie, flashes := st.flashes + 1 },
          [Event.get_user_call userid, Event.hash_password_call,
           Event.reset_user_sessions_call userid, Event.update_user_call userid])) ∧
    (∀ sessions, st.store = SessionInterface.database sessions →
      sessions.length > MAX_NUM_DATABASE_USER_SESSIONS →
      reset_password st userid password =
        some ({ users := update_user st.users
                  { u with password := generate_password_hash password },
                store := st.store, flashes := st.flashes + 1 },
          [Event.get_user_call userid, Event.hash_password_call,
           Event.reset_user_sessions_call userid, Event.update_user_call userid])) := by
  refine ⟨fun user => rfl, ?_, ?_⟩
  · intro hc
    unfold reset_password
    rw [hu]
    simp only [hc, reset_user_sessions]
    rfl
  · intro sessions hdb hbig
    unfold reset_password
    rw [hu]
    simp only [hdb, reset_user_sessions]
    rw [if_pos hbig]
    rfl

/-- C5 witness: with a `securecookie` store, resetting the password of
user 7 succeeds, stores the new hash, flashes one warning and raises
nothing. -/
theorem reset_password_skip_nonfatal_witness :
    reset_password ⟨[demoUser7], SessionInterface.securecookie, 0⟩ 7 "newpw" =
      some (⟨[⟨7, "alice", "pbkdf2-hash:newpw"⟩], SessionInterface.securecookie, 1⟩,
        [Event.get_user_call 7, Event.hash_password_call,
         Event.reset_user_sessions_call 7, Event.update_user_call 7]) :=
  ((reset_password_skip_nonfatal ⟨[demoUser7], SessionInterface.securecookie, 0⟩ 7
      "newpw" demoUser7 (by decide)).2.1 rfl).trans (by decide)

/-- C7: identity-space unification — loading by the decimal-string form
of an integer id and loading by the integer itself resolve identically,
for every integer `n` and every user store. -/
theorem load_user_string_int_unified (users : List User) (n : Int) :
    load_user users (PyVal.str (pyStr n)) = load_user users (PyVal.int n) := by
  have hmk : ∀ (c : Char) (cs : List Char),
      pyIntOfString (String.mk (c :: cs)) =
        if c = '-' then (parseNatDigits cs).map (fun m => -(m : Int))
        else if c = '+' then (parseNatDigits cs).map (fun m => (m : Int))
        else (parseNatDigits (c :: cs)).map (fun m => (m : Int)) :=
    fun c cs => rfl
  have hminus : ∀ c : Char, c.isDigit = true → c ≠ '-' := by
    intro c h hc
    subst hc
    exact absurd h (by decide)
  have hplus : ∀ c : Char, c.isDigit = true → c ≠ '+' := by
    intro c h hc
    subst hc
    exact absurd h (by decide)
  have key : pyIntOfString (pyStr n) = some n := by
    by_cases hn : n < 0
    · unfold pyStr
      rw [if_pos hn, hmk, if_pos rfl, parseNatDigits_pyStrNat]
      show some (-(n.natAbs : Int)) = some n
      congr 1
      omega
    · push_neg at hn
      unfold pyStr
      rw [if_neg (not_lt.mpr hn)]
      obtain ⟨c, cs, hcs⟩ : ∃ c cs, pyStrNat n.toNat = c :: cs := by
        cases h : pyStrNat n.toNat with
        | nil => exact absurd h (pyStrNat_ne_nil _)
        | cons c cs => exact ⟨c, cs, rfl⟩
      have hdig : c.isDigit = true := by
        have hall := pyStrNat_all_isDigit n.toNat
        rw [hcs] at hall
        simp only [List.all_cons, Bool.and_eq_true] at hall
        exact hall.1
      rw [hcs, hmk, if_neg (hminus c hdig), if_neg (hplus c hdig), ← hcs,
        parseNatDigits_pyStrNat]
      show some ((n.toNat : Int)) = some n
      congr 1
      omega
  simp only [load_user, pyToInt, key]

/-- C9: for a JWT payload whose subject resolves via `load_user`,
`load_user_jwt` returns exactly the resolved user, writes it into the
ambient `g.user` slot, and leaves every other part of the ambient state
(here, the flash channel) unchanged. -/
theorem load_user_jwt_context_write (users : List User) (amb : Ambient) (hdr : Unit)
    (jd : JwtData) (u : Option User)
    (h : load_user users jd.sub = Except.ok u) :
    load_user_jwt users amb hdr jd = Except.ok (u, { amb with gUser := u }) := by
  unfold load_user_jwt
  rw [h]

/-- C9 witness: resolving subject string `"7"` against a store holding
user 7 returns that user and writes it to `g.user`, leaving the flash
count untouched. -/
theorem load_user_jwt_context_write_witness :
    load_user_jwt [demoUser7] ⟨none, 3⟩ () ⟨PyVal.str "7"⟩ =
      Except.ok (some demoUser7, ⟨some demoUser7, 3⟩) :=
  load_user_jwt_context_write [demoUser7] ⟨none, 3⟩ () ⟨PyVal.str "7"⟩
    (some demoUser7) rfl

/-- C10: the string-to-integer normalization in `load_user` is partial —
any string the builtin `int()` cannot parse raises `ValueError` instead
of producing an empty (user-not-found) result. -/
theorem load_user_nonnumeric_raises (users : List User) (s : String)
    (h : pyIntOfString s = none) :
    load_user users (PyVal.str s) = Except.error PyError.valueError := by
  simp only [load_user, pyToInt, h]

/-- C10 witness: loading by the username string `"alice"` raises
`ValueError` even though a user with that username exists. -/
theorem load_user_nonnumeric_raises_witness :
    pyIntOfString "alice" = none ∧
    load_user [demoUser7] (PyVal.str "alice") = Except.error PyError.valueError :=
  ⟨by decide, load_user_nonnumeric_raises [demoUser7] "alice" (by decide)⟩

/-! ## Helper lemmas about the allow-list registry -/

theorem allowGet_dictSet_self (d : AllowList) (k : String) (v : List String) :
    allowGet (dictSet d k v) k = some v := by
  induction d with
  | nil => simp [dictSet, allowGet]
  | cons kv rest ih =>
    obtain ⟨k1, v1⟩ := kv
    by_cases h1 : k1 = k
    · simp [dictSet, h1, allowGet]
    · simp [dictSet, h1, allowGet, ih]

theorem allowGet_dictSet_other (d : AllowList) (k : String) (v : List String)
    (k' : String) (hne : k' ≠ k) :
    allowGet (dictSet d k v) k' = allowGet d k' := by
  induction d with
  | nil => simp [dictSet, allowGet, Ne.symm hne]
  | cons kv rest ih =>
    obtain ⟨k1, v1⟩ := kv
    by_cases h1 : k1 = k
    · subst h1
      simp [dictSet, allowGet, Ne.symm hne]
    · simp [dictSet, h1, allowGet, ih]

theorem allowGet_foldl (ps : List OAuthProvider) (acc : AllowList) (name : String)
    (hnd : (ps.map OAuthProvider.name).Nodup) :
    allowGet (ps.foldl registerProvider acc) name =
      match ps.find? (fun p => decide (p.name = name)) with
      | some p =>
        match p.whitelist with
        | some wl => some wl
        | none => allowGet acc name
      | none => allowGet acc name := by
  induction ps generalizing acc with
  | nil => rfl
  | cons p ps1 ih =>
    rw [List.map_cons, List.nodup_cons] at hnd
    obtain ⟨hnotin, hnd1⟩ := hnd
    rw [List.foldl_cons]
    by_cases hn : p.name = name
    · have hfind : ps1.find? (fun q => decide (q.name = name)) = none := by
        rw [List.find?_eq_none]
        intro q hq
        simp only [decide_eq_true_eq]
        intro hqname
        exact hnotin (List.mem_map.mpr ⟨q, hq, hqname.trans hn.symm⟩)
      rw [ih (registerProvider acc p) hnd1, hfind,
        List.find?_cons_of_pos _ (by simpa using hn)]
      show allowGet (registerProvider acc p) name =
        match p.whitelist with
        | some wl => some wl
        | none => allowGet acc name
      unfold registerProvider
      cases hw : p.whitelist with
      | some wl =>
        show allowGet (dictSet acc p.name wl) name = some wl
        rw [hn]
        exact allowGet_dictSet_self acc name wl
      | none => rfl
    · have hfind : List.find? (fun q => decide (q.name = name)) (p :: ps1) =
          List.find? (fun q => decide (q.name = name)) ps1 :=
        List.find?_cons_of_neg _ (by simpa using hn)
      rw [ih (registerProvider acc p) hnd1, hfind]
      have hacc : allowGet (registerProvider acc p) name = allowGet acc name := by
        unfold registerProvider
        cases hw : p.whitelist with
        | some wl => exact allowGet_dictSet_other acc p.name wl name (fun h => hn h.symm)
        | none => rfl
      simp only [hacc]

/-- C8: after OAuth startup initialization over descriptors with distinct
provider names, the allow-list registry maps a provider name to a list
exactly when that descriptor declares an allow-list, and to precisely the
declared list; a provider without one has no entry. -/
theorem init_auth_allow_list_spec (providers : List OAuthProvider) (name : String)
    (hnd : (providers.map OAuthProvider.name).Nodup) :
    allowGet (init_auth_allow_list providers) name =
      (providers.find? (fun p => decide (p.name = name))).bind OAuthProvider.whitelist := by
  unfold init_auth_allow_list
  rw [allowGet_foldl providers [] name hnd]
  cases hf : providers.find? (fun p => decide (p.name = name)) with
  | none => rfl
  | some p =>
    cases hw : p.whitelist with
    | some wl => simp [hw]
    | none => simp [hw, allowGet]

/-- C8 witness: provider `google` declares the allow-list
`["alice@example.com"]` and is mapped to exactly it; provider `azure`
declares none and has no entry. -/
theorem init_auth_allow_list_spec_witness :
    allowGet (init_auth_allow_list
        [⟨"google", some ["alice@example.com"]⟩, ⟨"azure", none⟩]) "google" =
      some ["alice@example.com"] ∧
    allowGet (init_auth_allow_list
        [⟨"google", some ["alice@example.com"]⟩, ⟨"azure", none⟩]) "azure" = none :=
  ⟨(init_auth_allow_list_spec
        [⟨"google", some ["alice@example.com"]⟩, ⟨"azure", none⟩] "google"
        (by decide)).trans (by decide),
   (init_auth_allow_list_spec
        [⟨"google", some ["alice@example.com"]⟩, ⟨"azure", none⟩] "azure"
        (by decide)).trans (by decide)⟩

/-! ## Helper lemmas about config lookup and `setdefault` -/

theorem cfgGet_append_single_ne (cfg : Config) (k : String) (v : CfgVal)
    (k' : String) (hne : k' ≠ k) :
    cfgGet (cfg ++ [(k, v)]) k' = cfgGet cfg k' := by
  induction cfg with
  | nil => simp [cfgGet, Ne.symm hne]
  | cons kv rest ih =>
    obtain ⟨k1, v1⟩ := kv
    simp only [List.cons_append, cfgGet, List.append_eq]
    rw [ih]

theorem cfgGet_append_single_self (cfg : Config) (k : String) (v : CfgVal)
    (h : cfgGet cfg k = none) :
    cfgGet (cfg ++ [(k, v)]) k = some v := by
  induction cfg with
  | nil => simp [cfgGet]
  | cons kv rest ih =>
    obtain ⟨k1, v1⟩ := kv
    by_cases h1 : k1 = k
    · simp only [cfgGet, if_pos h1] at h
      exact absurd h (by simp)
    · simp only [cfgGet, if_neg h1] at h
      simp only [List.cons_append, cfgGet, if_neg h1, List.append_eq]
      exact ih h

theorem cfgGet_setdefault (cfg : Config) (k : String) (v : CfgVal) (k' : String) :
    cfgGet (setdefault cfg k v) k' =
      if k' = k then some ((cfgGet cfg k).getD v) else cfgGet cfg k' := by
  unfold setdefault
  by_cases h : k' = k
  · subst h
    cases hk : cfgGet cfg k' with
    | some w =>
      rw [if_pos (by simp [hk]), if_pos rfl, hk]
      rfl
    | none =>
      rw [if_neg (by simp [hk]), cfgGet_append_single_self cfg k' v hk, if_pos rfl]
      rfl
  · rw [if_neg h]
    cases hk : cfgGet cfg k with
    | some w => rw [if_pos (by simp [hk])]
    | none => rw [if_neg (by simp [hk]), cfgGet_append_single_ne cfg k v k' h]

/-- C6: with auth type LDAP configured, startup configuration
initialization fails — with the LDAP-server error, its only failure
point — exactly when no LDAP server address is present; when one is
present it succeeds, filling defaults for the search filter, domain
suffix, TLS options, and the uid/group/first-name/last-name/email
attribute-field mappings. -/
theorem init_config_ldap (cfg0 : Config)
    (hT : cfgGet cfg0 "AUTH_TYPE" = some (CfgVal.auth AuthType.LDAP)) :
    (cfgGet cfg0 "AUTH_LDAP_SERVER" = none →
      init_config cfg0 = Except.error ldapServerError) ∧
    (∀ srv, cfgGet cfg0 "AUTH_LDAP_SERVER" = some srv →
      ∃ cfg, init_config cfg0 = Except.ok cfg ∧
        cfgGet cfg "AUTH_LDAP_SEARCH_FILTER" =
          some ((cfgGet cfg0 "AUTH_LDAP_SEARCH_FILTER").getD (CfgVal.s "")) ∧
        cfgGet cfg "AUTH_LDAP_APPEND_DOMAIN" =
          some ((cfgGet cfg0 "AUTH_LDAP_APPEND_DOMAIN").getD (CfgVal.s "")) ∧
        cfgGet cfg "AUTH_LDAP_USE_TLS" =
          some ((cfgGet cfg0 "AUTH_LDAP_USE_TLS").getD (CfgVal.b false)) ∧
        cfgGet cfg "AUTH_LDAP_TLS_DEMAND" =
          some ((cfgGet cfg0 "AUTH_LDAP_TLS_DEMAND").getD (CfgVal.b false)) ∧
        cfgGet cfg "AUTH_LDAP_UID_FIELD" =
          some ((cfgGet cfg0 "AUTH_LDAP_UID_FIELD").getD (CfgVal.s "uid")) ∧
        cfgGet cfg "AUTH_LDAP_GROUP_FIELD" =
          some ((cfgGet cfg0 "AUTH_LDAP_GROUP_FIELD").getD (CfgVal.s "memberOf")) ∧
        cfgGet cfg "AUTH_LDAP_FIRSTNAME_FIELD" =
          some ((cfgGet cfg0 "AUTH_LDAP_FIRSTNAME_FIELD").getD (CfgVal.s "givenName")) ∧
        cfgGet cfg "AUTH_LDAP_LASTNAME_FIELD" =
          some ((cfgGet cfg0 "AUTH_LDAP_LASTNAME_FIELD").getD (CfgVal.s "sn")) ∧
        cfgGet cfg "AUTH_LDAP_EMAIL_FIELD" =
          some ((cfgGet cfg0 "AUTH_LDAP_EMAIL_FIELD").getD (CfgVal.s "mail"))) := by
  have hbT : cfgGet (baseDefaults cfg0) "AUTH_TYPE" =
      some (CfgVal.auth AuthType.LDAP) := by
    simp [baseDefaults, cfgGet_setdefault, hT]
  have hbS : cfgGet (baseDefaults cfg0) "AUTH_LDAP_SERVER" =
      cfgGet cfg0 "AUTH_LDAP_SERVER" := by
    simp [baseDefaults, cfgGet_setdefault]
  constructor
  · intro hno
    unfold init_config ldapConfigStep
    rw [hbT, if_pos rfl, hbS, hno]
    rfl
  · intro srv hsrv
    have hstep : ldapConfigStep (baseDefaults cfg0) =
        Except.ok (ldapDefaults (baseDefaults cfg0)) := by
      unfold ldapConfigStep
      rw [hbT, if_pos rfl, hbS, hsrv]
      rfl
    refine ⟨setdefault (setdefault (ldapDefaults (baseDefaults cfg0))
        "AUTH_RATE_LIMITED" (CfgVal.b true)) "AUTH_RATE_LIMIT"
        (CfgVal.s "5 per 40 second"), ?_, ?_, ?_, ?_, ?_, ?_, ?_, ?_, ?_, ?_⟩
    · unfold init_config
      rw [hstep]
    · simp [ldapDefaults, baseDefaults, cfgGet_setdefault]
    · simp [ldapDefaults, baseDefaults, cfgGet_setdefault]
    · simp [ldapDefaults, baseDefaults, cfgGet_setdefault]
    · simp [ldapDefaults, baseDefaults, cfgGet_setdefault]
    · simp [ldapDefaults, baseDefaults, cfgGet_setdefault]
    · simp [ldapDefaults, baseDefaults, cfgGet_setdefault]
    · simp [ldapDefaults, baseDefaults, cfgGet_setdefault]
    · simp [ldapDefaults, baseDefaults, cfgGet_setdefault]
    · simp [ldapDefaults, baseDefaults, cfgGet_setdefault]

def cfgNoServer : Config := [("AUTH_TYPE", CfgVal.auth AuthType.LDAP)]

def cfgWithServer : Config :=
  [("AUTH_TYPE", CfgVal.auth AuthType.LDAP),
   ("AUTH_LDAP_SERVER", CfgVal.s "ldap://ldap.example.com")]

/-- C6 witness: LDAP without a server address fails with the
configuration error; LDAP with a server address succeeds and the uid and
email attribute-field defaults are filled. -/
theorem init_config_ldap_witness :
    init_config cfgNoServer = Except.error ldapServerError ∧
    (∃ cfg, init_config cfgWithServer = Except.ok cfg ∧
      cfgGet cfg "AUTH_LDAP_UID_FIELD" = some (CfgVal.s "uid") ∧
      cfgGet cfg "AUTH_LDAP_EMAIL_FIELD" = some (CfgVal.s "mail")) := by
  constructor
  · exact (init_config_ldap cfgNoServer (by decide)).1 (by decide)
  · obtain ⟨cfg, hok, h1, h2, h3, h4, h5, h6, h7, h8, h9⟩ :=
      (init_config_ldap cfgWithServer (by decide)).2
        (CfgVal.s "ldap://ldap.example.com") (by decide)
    exact ⟨cfg, hok, by simpa [cfgWithServer, cfgGet] using h5,
      by simpa [cfgWithServer, cfgGet] using h9⟩
